import Mathlib

/-!
Verification development for the financialGPT document-ingestion backend.

The definitions below are a shallow embedding of the repository's three
source files:
  * `src/app/api/upload-documents/route.ts` (the upload endpoint `POST`),
  * the preview-chunks route (the preview endpoint `POST`),
  * `setup-feedback-table.sql` together with the `pdf-parsers` module
    (`match_feedback_by_embedding`, `PDFParserFactory`).

External collaborators (the langchain text splitters, the OpenAI embedding
service, the Supabase insert, `JSON.parse`, and PDF parsing proper) are
modelled as explicit oracle parameters: the endpoint code only branches on
their success or failure, never on their internals.
-/

namespace FinancialGPT

/-! ### JavaScript primitives used by the routes -/

/-- JavaScript string falsiness for an optional form field:
`null` and the empty string are falsy. Models `!metadataStr` and
`formData.get(x) as string || default`. -/
def jsFalsyStr : Option String → Bool
  | none => true
  | some s => s == ""

/-- `formData.get(x) as string || d` : take the field unless it is
absent or empty. -/
def jsOrStr (f : Option String) (d : String) : String :=
  if jsFalsyStr f then d else f.getD d

/-- `x || d` on an optional string-valued object property (`metadata.author
|| 'Unknown'`): `undefined` and `''` fall through to the default. -/
def jsOrProp (f : Option String) (d : String) : String :=
  match f with
  | none => d
  | some s => if s == "" then d else s

/-- `x || null` on an optional string-valued object property
(`metadata.author || null`): the empty string collapses to `null`. -/
def jsOrNull : Option String → Option String
  | none => none
  | some s => if s == "" then none else some s

/-- Whitespace skipped by JavaScript `parseInt` before the number. -/
def jsIsSpace (c : Char) : Bool :=
  c == ' ' || c == '\t' || c == '\n' || c == '\r'

/-- JavaScript `String.prototype.trim()`: strip leading and trailing
whitespace (restricted to the ASCII whitespace the routes encounter). -/
def jsTrim (s : String) : String :=
  ⟨((s.data.dropWhile jsIsSpace).reverse.dropWhile jsIsSpace).reverse⟩

def isHexDigitChar (c : Char) : Bool :=
  c.isDigit || ('a' ≤ c && c ≤ 'f') || ('A' ≤ c && c ≤ 'F')

def hexDigitVal (c : Char) : Nat :=
  if c.isDigit then c.toNat - 48
  else if 'a' ≤ c then c.toNat - 87
  else c.toNat - 55

/-- Fold the longest leading run of digits; `none` when there is none
(JavaScript `NaN`). -/
def parseDigitRun (isD : Char → Bool) (val : Char → Nat) (base : Nat)
    (cs : List Char) : Option Nat :=
  let ds := cs.takeWhile isD
  if ds.isEmpty then none
  else some (ds.foldl (fun a c => a * base + val c) 0)

/-- JavaScript `parseInt` with no radix argument, on the character list of
the input string: skip leading whitespace, optional sign, auto-detected
hexadecimal on a `0x`/`0X` prefix, otherwise decimal; `none` models `NaN`. -/
def jsParseIntChars (cs : List Char) : Option Int :=
  let cs := cs.dropWhile jsIsSpace
  let (sign, cs) :=
    match cs with
    | '-' :: rest => ((-1 : Int), rest)
    | '+' :: rest => ((1 : Int), rest)
    | rest => ((1 : Int), rest)
  match cs with
  | '0' :: 'x' :: rest => (parseDigitRun isHexDigitChar hexDigitVal 16 rest).map (sign * ·)
  | '0' :: 'X' :: rest => (parseDigitRun isHexDigitChar hexDigitVal 16 rest).map (sign * ·)
  | rest => (parseDigitRun Char.isDigit (fun c => c.toNat - 48) 10 rest).map (sign * ·)

def jsParseInt (s : String) : Option Int :=
  jsParseIntChars s.data

/-- `parseInt(formData.get(x) as string)`: an absent field is `null`, which
`parseInt` coerces to the string `"null"` (hence `NaN`). -/
def jsParseIntField (f : Option String) : Option Int :=
  jsParseInt (match f with | none => "null" | some s => s)

/-- `parseInt(field) || d`: `NaN` and `0` are falsy and fall back to the
default. Shared verbatim by the upload and the preview endpoint. -/
def resolveIntField (f : Option String) (d : Int) : Int :=
  match jsParseIntField f with
  | none => d
  | some v => if v = 0 then d else v

/-- `const chunkSize = parseInt(formData.get('chunkSize') as string) || 5000` -/
def resolveChunkSize (f : Option String) : Int := resolveIntField f 5000

/-- `const chunkOverlap = parseInt(formData.get('chunkOverlap') as string) || 500` -/
def resolveChunkOverlap (f : Option String) : Int := resolveIntField f 500

/-! ### Data model of the upload endpoint -/

/-- The parsed `metadata` form field (`JSON.parse(metadataStr)`), restricted
to the properties the upload route reads. A missing JSON key is `none`. -/
structure UploadMetadata where
  title : Option String := none
  author : Option String := none
  topic : Option String := none
  doc_type : Option String := none
  genre : Option String := none
  difficulty : Option String := none
  tags : Option String := none
  description : Option String := none
  deriving DecidableEq, Repr

/-- `PDFParseResult.metadata`: document metadata reported by the parser
backend (dates kept as strings). -/
structure PDFMetaData where
  pages : Option Nat := none
  pdfTitle : Option String := none
  pdfAuthor : Option String := none
  creator : Option String := none
  subject : Option String := none
  keywords : Option String := none
  creationDate : Option String := none
  modificationDate : Option String := none
  deriving DecidableEq, Repr

/-- Outcome of `parsePDF` (plus everything else inside the per-file `try`
up to the chunk loop) for one file: either a parse result or a thrown
error carrying `fileError.message`. -/
inductive ParseOutcome where
  | ok (text : String) (meta : PDFMetaData) (parserUsed : String) (parseTime : Nat)
  | err (msg : String)
  deriving DecidableEq, Repr

/-- One entry of `formData.getAll('files')`, together with the oracle
outcome of parsing it. -/
structure FileReq where
  name : String
  size : Nat
  parse : ParseOutcome
  deriving DecidableEq, Repr

/-- The row handed to `supabase.from('documents_enhanced').insert`, with the
nested `metadata` JSON object flattened into `meta_*` fields (its `...metadata`
spread is kept as `meta_base`; the explicitly written keys come after the
spread in the source, so they win). -/
structure StoredChunkRecord where
  content : String
  meta_base : UploadMetadata
  meta_chunk_index : Nat
  meta_total_chunks : Nat
  meta_filename : String
  meta_file_size : Nat
  meta_parser_used : String
  meta_parse_time : Nat
  meta_pdf_metadata : PDFMetaData
  embedding : List Int
  title : Option String
  author : Option String
  doc_type : String
  genre : Option String
  topic : Option String
  difficulty : Option String
  tags : Option String
  source_type : String
  summary : Option String
  chunk_id : Nat
  total_chunks : Nat
  source : String
  deriving DecidableEq, Repr

/-- The context-enhanced string sent to the embedding service: the template
literal of the upload route after its final `.trim()`. -/
def contextEnhancedText (meta : UploadMetadata) (fileName : String)
    (chunk : String) : String :=
  jsTrim ("\nCompany/Source: " ++ jsOrProp meta.title fileName ++
    "\nAuthor/Speaker: " ++ jsOrProp meta.author "Unknown" ++
    "\nTopic: " ++ jsOrProp meta.topic "General" ++
    "\nContent: " ++ chunk ++ "\n            ")

/-- The insert payload for chunk number `i` (0-based) of a file that split
into `total` chunks. -/
def mkChunkRecord (meta : UploadMetadata) (file : FileReq)
    (pdfMeta : PDFMetaData) (parserUsed : String) (parseTime : Nat)
    (total : Nat) (i : Nat) (chunk : String) (embedding : List Int) :
    StoredChunkRecord where
  content := chunk
  meta_base := meta
  meta_chunk_index := i
  meta_total_chunks := total
  meta_filename := file.name
  meta_file_size := file.size
  meta_parser_used := parserUsed
  meta_parse_time := parseTime
  meta_pdf_metadata := pdfMeta
  embedding := embedding
  title := meta.title
  author := jsOrNull meta.author
  doc_type := jsOrProp meta.doc_type "Book"
  genre := jsOrNull meta.genre
  topic := jsOrNull meta.topic
  difficulty := jsOrNull meta.difficulty
  tags := jsOrNull meta.tags
  source_type := "pdf_upload"
  summary := jsOrNull meta.description
  chunk_id := i + 1
  total_chunks := total
  source := file.name

/-- Oracles for the upload route's external collaborators. `embed c = none`
models `generateEmbedding` throwing on input `c`; `insertOk r = false`
models the Supabase insert returning a `chunkError` for row `r`. -/
structure UploadEnv where
  splitFam : String → Int → Int → String → List String
  jsonParse : String → Option UploadMetadata
  embed : String → Option (List Int)
  insertOk : StoredChunkRecord → Bool

/-- The per-chunk loop of the upload route over the enumerated chunk list:
a chunk whose embedding call throws, or whose insert reports an error, is
logged and skipped; every other chunk contributes its stored row (and a
`totalChunks++`). -/
def storeChunks (env : UploadEnv) (meta : UploadMetadata) (file : FileReq)
    (pdfMeta : PDFMetaData) (parserUsed : String) (parseTime : Nat)
    (chunks : List String) : List StoredChunkRecord :=
  chunks.enum.filterMap fun (i, chunk) =>
    match env.embed (contextEnhancedText meta file.name chunk) with
    | none => none
    | some embedding =>
      let r := mkChunkRecord meta file pdfMeta parserUsed parseTime
        chunks.length i chunk embedding
      if env.insertOk r then some r else none

/-- The per-file body of the upload route: returns the rows stored for this
file and whether `documentsCount` was incremented. A thrown parse error, a
blank extracted text, or an empty chunk list skips the file without
incrementing. -/
def processUploadFile (split : String → List String) (env : UploadEnv)
    (meta : UploadMetadata) (file : FileReq) :
    List StoredChunkRecord × Bool :=
  match file.parse with
  | .err _ => ([], false)
  | .ok text pdfMeta parserUsed parseTime =>
    if text == "" || jsTrim text == "" then ([], false)
    else
      let chunks := split text
      if chunks.length == 0 then ([], false)
      else (storeChunks env meta file pdfMeta parserUsed parseTime chunks, true)

/-- `for (const file of files) { ... }` of the upload route: accumulates
stored rows and the `documentsCount`. -/
def uploadLoop (split : String → List String) (env : UploadEnv)
    (meta : UploadMetadata) : List FileReq → List StoredChunkRecord × Nat
  | [] => ([], 0)
  | f :: fs =>
    let (recs, inc) := processUploadFile split env meta f
    let (rest, docs) := uploadLoop split env meta fs
    (recs ++ rest, (if inc then 1 else 0) + docs)

/-- The multipart form fields of a request, each `none` when absent. Both
routes read the same field set. -/
structure RouteRequest where
  files : List FileReq
  metadataStr : Option String
  splitterTypeField : Option String := none
  chunkSizeField : Option String := none
  chunkOverlapField : Option String := none
  pdfParserField : Option String := none
  deriving DecidableEq, Repr

/-- The JSON responses the upload route can produce. -/
inductive UploadResponse where
  | ok (documentsCount : Nat) (chunksCount : Nat) (message : String)
  | badRequest (error : String)
  | internalError (error : String)
  deriving DecidableEq, Repr

/-- HTTP status of an upload response (`ok` carries `success: true`). -/
def uploadStatus : UploadResponse → Nat
  | .ok _ _ _ => 200
  | .badRequest _ => 400
  | .internalError _ => 500

/-- The upload endpoint `POST`: validation (empty file list, falsy
`metadata` field), `JSON.parse` (a throw lands in the outer `catch`,
an HTTP 500), splitter configuration from the resolved form fields, then
the file loop, always answered with `success: true` and the two counters. -/
def uploadPOST (env : UploadEnv) (req : RouteRequest) : UploadResponse :=
  if req.files.length == 0 then .badRequest "No files provided"
  else if jsFalsyStr req.metadataStr then .badRequest "Metadata is required"
  else
    match env.jsonParse (req.metadataStr.getD "") with
    | none => .internalError "Internal server error"
    | some meta =>
      let splitterType := jsOrStr req.splitterTypeField "recursive"
      let chunkSize := resolveChunkSize req.chunkSizeField
      let chunkOverlap := resolveChunkOverlap req.chunkOverlapField
      let split := env.splitFam splitterType chunkSize chunkOverlap
      let (recs, docs) := uploadLoop split env meta req.files
      .ok docs recs.length
        ("Successfully processed " ++ toString docs ++ " documents with " ++
          toString recs.length ++ " chunks")

/-! ### The preview endpoint and its chunk statistics -/

/-- One element of `chunkPreviews`: `{ index, content, length }`. -/
structure ChunkPreview where
  index : Nat
  content : String
  length : Nat
  deriving DecidableEq, Repr

/-- One entry of `extractedMetadata`:
`{ filename, ...pdfResult.metadata, parserUsed, parseTime }`. -/
structure FileMeta where
  filename : String
  pdfMeta : PDFMetaData
  parserUsed : String
  parseTime : Nat
  deriving DecidableEq, Repr

/-- The `parsing_info` object of the preview response. -/
structure ParsingDetails where
  total_parse_time : Nat
  parser_used : String
  files_metadata : List FileMeta
  deriving DecidableEq, Repr

/-- The `chunkStats` object of the preview response. -/
structure ChunkStats where
  total_chunks : Nat
  avg_length : Nat
  min_length : Nat
  max_length : Nat
  first_chunk : Option ChunkPreview
  last_chunk : Option ChunkPreview
  all_chunks : List ChunkPreview
  parsing_info : ParsingDetails
  deriving DecidableEq, Repr

/-- `Math.min(...xs)` over a non-empty spread (0 on the empty list, which
the route never reaches). -/
def listMinD : List Nat → Nat
  | [] => 0
  | x :: xs => xs.foldl Nat.min x

/-- `Math.max(...xs)` over a non-empty spread. -/
def listMaxD : List Nat → Nat
  | [] => 0
  | x :: xs => xs.foldl Nat.max x

/-- `Math.round(s / n)` for natural `s`, positive `n`: the nearest integer
to `s / n`, halves rounded up, i.e. `⌊s / n + 1 / 2⌋ = (2 * s + n) / (2 * n)`
in integer division. -/
def jsRoundDiv (s n : Nat) : Nat := (2 * s + n) / (2 * n)

/-- The statistics block computed by the preview route from the combined
chunk list (lines 148-178 of the preview source). -/
def chunkStatsOf (allChunks : List String) (totalParseTime : Nat)
    (pdfParser : String) (extractedMetadata : List FileMeta) : ChunkStats :=
  let chunkLengths := allChunks.map String.length
  let totalChunks := allChunks.length
  let avgLength := jsRoundDiv chunkLengths.sum totalChunks
  let minLength := listMinD chunkLengths
  let maxLength := listMaxD chunkLengths
  let chunkPreviews := allChunks.enum.map fun (index, chunk) =>
    ChunkPreview.mk index chunk chunk.length
  { total_chunks := totalChunks
    avg_length := avgLength
    min_length := minLength
    max_length := maxLength
    first_chunk := chunkPreviews.head?
    last_chunk := chunkPreviews.getLast?
    all_chunks := chunkPreviews
    parsing_info :=
      { total_parse_time := totalParseTime
        parser_used := pdfParser
        files_metadata := extractedMetadata } }

/-- The JSON responses the preview route can produce. -/
inductive PreviewResponse where
  | ok (stats : ChunkStats)
  | badRequest (error : String)
  | internalError (error : String)
  deriving DecidableEq, Repr

/-- HTTP status of a preview response (`ok` carries `success: true`). -/
def previewStatus : PreviewResponse → Nat
  | .ok _ => 200
  | .badRequest _ => 400
  | .internalError _ => 500

/-- Oracles for the preview route: the splitter family and `JSON.parse`.
(The preview route embeds and stores nothing.) -/
structure PreviewEnv where
  splitFam : String → Int → Int → String → List String
  jsonParse : String → Option UploadMetadata

/-- The per-file loop of the preview route. A thrown per-file error returns
an HTTP 400 response at once (`.error`); otherwise the file's parse time and
metadata are recorded, and, unless the text is blank, its chunks are
appended. Returns `(allChunks, totalParseTime, extractedMetadata)`. -/
def previewLoop (split : String → List String) :
    List FileReq → Except String (List String × Nat × List FileMeta)
  | [] => .ok ([], 0, [])
  | f :: fs =>
    match f.parse with
    | .err msg => .error ("Failed to process file " ++ f.name ++ ": " ++ msg)
    | .ok text pdfMeta parserUsed parseTime =>
      let fm := FileMeta.mk f.name pdfMeta parserUsed parseTime
      let chunks :=
        if text == "" || jsTrim text == "" then [] else split text
      match previewLoop split fs with
      | .error e => .error e
      | .ok (restChunks, restTime, restMeta) =>
        .ok (chunks ++ restChunks, parseTime + restTime, fm :: restMeta)

/-- The preview route from the splitter initialisation onward (the parsed
`metadata` object is never read again after line 32 of the source): splitter
configuration, the file loop, the empty-chunk-list 400 and the statistics. -/
def previewProcess (env : PreviewEnv) (req : RouteRequest) : PreviewResponse :=
  let splitterType := jsOrStr req.splitterTypeField "recursive"
  let chunkSize := resolveChunkSize req.chunkSizeField
  let chunkOverlap := resolveChunkOverlap req.chunkOverlapField
  let pdfParser := jsOrStr req.pdfParserField "pdf-parse"
  let split := env.splitFam splitterType chunkSize chunkOverlap
  match previewLoop split req.files with
  | .error msg => .badRequest msg
  | .ok (allChunks, totalParseTime, extractedMetadata) =>
    if allChunks.length == 0 then
      .badRequest "No chunks could be generated from the files"
    else
      .ok (chunkStatsOf allChunks totalParseTime pdfParser
        extractedMetadata)

/-- The preview endpoint `POST`: empty file list aborts with 400; an absent
or empty `metadata` field is replaced by `{}` (only a present field goes
through `JSON.parse`, whose throw becomes a 500); then the rest of the
route. -/
def previewPOST (env : PreviewEnv) (req : RouteRequest) : PreviewResponse :=
  if req.files.length == 0 then .badRequest "No files provided"
  else
    match
      (if jsFalsyStr req.metadataStr then some {}
       else env.jsonParse (req.metadataStr.getD "")) with
    | none => .internalError "Internal server error: JSON parse failed"
    | some _metadata => previewProcess env req

/-! ### The feedback table and `match_feedback_by_embedding` -/

/-- A row of the `feedback` table. `query_embedding` is nullable; vector
components are rationals (pgvector's reals, exactly). -/
structure FeedbackRow where
  rowId : Nat
  user_query : String
  ai_response : String
  feedback_type : String
  chat_id : Option String := none
  rating : Option Int := none
  comment : Option String := none
  query_embedding : Option (List ℚ) := none
  deriving DecidableEq, Repr

/-- SQL `TRIM(s)`: strip leading and trailing space characters. -/
def sqlTrim (s : String) : String :=
  ⟨((s.data.dropWhile (· == ' ')).reverse.dropWhile (· == ' ')).reverse⟩

/-- The comment condition of the stored procedure:
`comment IS NOT NULL AND LENGTH(TRIM(comment)) > 0`. -/
def commentKept : Option String → Bool
  | none => false
  | some c => (sqlTrim c).length > 0

/-- Cosine distance of a row's stored embedding to the input vector
(`feedback.query_embedding <=> query_embedding`), given the pgvector
distance operator `dist` as a parameter. -/
def rowDist (dist : List ℚ → List ℚ → ℚ) (q : List ℚ) (r : FeedbackRow) : ℚ :=
  dist (r.query_embedding.getD []) q

/-- `1 - (feedback.query_embedding <=> query_embedding)`, the `similarity`
output column. -/
def rowSimilarity (dist : List ℚ → List ℚ → ℚ) (q : List ℚ)
    (r : FeedbackRow) : ℚ :=
  1 - rowDist dist q r

/-- The stored procedure `match_feedback_by_embedding`, parameterised by the
`<=>` operator: keep rows whose similarity strictly exceeds the threshold
and whose comment is non-null and non-blank (a NULL stored embedding makes
the similarity predicate NULL, so such rows are dropped), order by distance
ascending (closest first) and return at most `match_count` rows. -/
def match_feedback_by_embedding (dist : List ℚ → List ℚ → ℚ)
    (query_embedding : List ℚ) (match_threshold : ℚ) (match_count : Nat)
    (rows : List FeedbackRow) : List FeedbackRow :=
  let kept := rows.filter fun r =>
    match r.query_embedding with
    | none => false
    | some e =>
      decide (1 - dist e query_embedding > match_threshold) &&
        commentKept r.comment
  let sorted := kept.insertionSort fun a b =>
    rowDist dist query_embedding a ≤ rowDist dist query_embedding b
  sorted.take match_count

/-! ### The PDF parser factory -/

/-- `PDFParserFeatures`: the boolean capability record each backend
advertises. -/
structure PDFParserFeatures where
  extractText : Bool
  extractMetadata : Bool
  handleEncrypted : Bool
  handleImages : Bool
  preserveFormatting : Bool
  ocrCapability : Bool
  deriving DecidableEq, Repr

/-- The two registered backend classes. -/
inductive ParserBackend where
  | pdfParse
  | mock
  deriving DecidableEq, Repr

def backendName : ParserBackend → String
  | .pdfParse => "pdf-parse"
  | .mock => "mock"

def backendDescription : ParserBackend → String
  | .pdfParse =>
    "Fast PDF text extraction using pdf-parse library. Good for standard PDFs with embedded text."
  | .mock => "Mock parser for testing purposes. Returns sample text."

/-- `supportsFeatures()` of each backend. -/
def supportsFeatures : ParserBackend → PDFParserFeatures
  | .pdfParse =>
    { extractText := true
      extractMetadata := true
      handleEncrypted := false
      handleImages := false
      preserveFormatting := false
      ocrCapability := false }
  | .mock =>
    { extractText := true
      extractMetadata := true
      handleEncrypted := true
      handleImages := false
      preserveFormatting := false
      ocrCapability := false }

/-- The `AVAILABLE_PARSERS` registry, in declaration order. -/
def AVAILABLE_PARSERS : List (String × ParserBackend) :=
  [("pdf-parse", .pdfParse), ("mock", .mock)]

/-- The error message thrown by `PDFParserFactory.create` for an unknown
name (apostrophes written as escapes). -/
def createErrorMsg (parserType : String) : String :=
  "Parser \x27" ++ parserType ++ "\x27 not found. Available parsers: " ++
    String.intercalate ", " (AVAILABLE_PARSERS.map Prod.fst)

/-- `PDFParserFactory.create`: look the name up in the registry; an unknown
name throws the enumerating error. -/
def PDFParserFactory.create (parserType : String) :
    Except String ParserBackend :=
  match AVAILABLE_PARSERS.lookup parserType with
  | some b => .ok b
  | none => .error (createErrorMsg parserType)

/-- One element of `PDFParserFactory.getAvailableParsers()`. -/
structure ParserDescriptor where
  name : String
  description : String
  features : PDFParserFeatures
  deriving DecidableEq, Repr

/-- `PDFParserFactory.getAvailableParsers()`: name, description and feature
record of every registry entry, in registry order. -/
def getAvailableParsers : List ParserDescriptor :=
  AVAILABLE_PARSERS.map fun (n, b) =>
    ParserDescriptor.mk n (backendDescription b) (supportsFeatures b)

/-- `Partial<PDFParserFeatures>`: a capability-requirement record; `none`
models an absent key. -/
structure FeatureRequirements where
  extractText : Option Bool := none
  extractMetadata : Option Bool := none
  handleEncrypted : Option Bool := none
  handleImages : Option Bool := none
  preserveFormatting : Option Bool := none
  ocrCapability : Option Bool := none
  deriving DecidableEq, Repr

/-- One requirement entry: `if (!required) return true; return
parser.features[feature]` — only a key present with value `true`
constrains the backend. -/
def reqSat (required : Option Bool) (available : Bool) : Bool :=
  match required with
  | some true => available
  | _ => true

/-- `Object.entries(requirements).every(...)` over the six capability
keys. -/
def meetsRequirements (feats : PDFParserFeatures)
    (req : FeatureRequirements) : Bool :=
  reqSat req.extractText feats.extractText &&
  reqSat req.extractMetadata feats.extractMetadata &&
  reqSat req.handleEncrypted feats.handleEncrypted &&
  reqSat req.handleImages feats.handleImages &&
  reqSat req.preserveFormatting feats.preserveFormatting &&
  reqSat req.ocrCapability feats.ocrCapability

/-- `PDFParserFactory.getBestParser`: without requirements return the
default `pdf-parse`; otherwise the first registry entry meeting every
requirement, falling back to the default. -/
def PDFParserFactory.getBestParser
    (requirements : Option FeatureRequirements) : String :=
  match requirements with
  | none => "pdf-parse"
  | some req =>
    match getAvailableParsers.find? (fun p => meetsRequirements p.features req) with
    | some p => p.name
    | none => "pdf-parse"

/-! ### Derived predicates and concrete fixtures -/

/-- The condition under which the upload route's per-file body reaches its
chunk loop and increments `documentsCount`: the file parsed, its text is not
blank, and the splitter produced at least one chunk. -/
def fileCompletes (split : String → List String) (f : FileReq) : Bool :=
  match f.parse with
  | .err _ => false
  | .ok text _ _ _ =>
    !(text == "" || jsTrim text == "") && !((split text).length == 0)

/-- A one-chunk-per-document splitter family for concrete instances. -/
def wholeTextSplitFam : String → Int → Int → String → List String :=
  fun _ _ _ t => [t]

/-- A file whose parse succeeds with the text `"hello"`. -/
def okFile : FileReq :=
  { name := "a.pdf", size := 7, parse := .ok "hello" {} "pdf-parse" 3 }

/-- A file whose parse throws. -/
def badFile : FileReq :=
  { name := "b.pdf", size := 9, parse := .err "Invalid PDF structure" }

/-- Upload oracles where every external call succeeds. -/
def allOkUploadEnv : UploadEnv :=
  { splitFam := wholeTextSplitFam
    jsonParse := fun _ => some {}
    embed := fun _ => some [0]
    insertOk := fun _ => true }

/-- Preview oracles with a trivial splitter and always-parsing JSON. -/
def plainPreviewEnv : PreviewEnv :=
  { splitFam := wholeTextSplitFam
    jsonParse := fun _ => some {} }

/-- Upload oracles for the chunk-failure scenario: two chunks `"a"`, `"b"`,
and the embedding call throws exactly on the context string of chunk
`"b"`. -/
def oneFailUploadEnv : UploadEnv :=
  { splitFam := fun _ _ _ _ => ["a", "b"]
    jsonParse := fun _ => some {}
    embed := fun c =>
      if c = contextEnhancedText {} "a.pdf" "b" then none else some [0]
    insertOk := fun _ => true }


/-! ### Helper lemmas on folds, sums and JavaScript rounding -/

lemma foldl_min_le_init (l : List Nat) : ∀ x, l.foldl Nat.min x ≤ x := by
  induction l with
  | nil => intro x; simp
  | cons a l ih => intro x; exact le_trans (ih _) (Nat.min_le_left x a)

lemma foldl_min_le_mem (l : List Nat) : ∀ x, ∀ a ∈ l, l.foldl Nat.min x ≤ a := by
  induction l with
  | nil => intro x a ha; cases ha
  | cons b l ih =>
    intro x a ha
    rcases List.mem_cons.mp ha with rfl | ha'
    · exact le_trans (foldl_min_le_init l (Nat.min x a)) (Nat.min_le_right x a)
    · exact ih (Nat.min x b) a ha'

lemma foldl_min_mem (l : List Nat) : ∀ x, l.foldl Nat.min x = x ∨ l.foldl Nat.min x ∈ l := by
  induction l with
  | nil => intro x; exact Or.inl rfl
  | cons b l ih =>
    intro x
    rcases ih (Nat.min x b) with h | h
    · rw [show (b :: l).foldl Nat.min x = l.foldl Nat.min (Nat.min x b) from rfl, h]
      rcases Nat.le_total x b with hxb | hbx
      · exact Or.inl (Nat.min_eq_left hxb)
      · exact Or.inr (by simp [Nat.min_eq_right hbx])
    · exact Or.inr (List.mem_cons_of_mem _ h)

lemma foldl_max_ge_init (l : List Nat) : ∀ x, x ≤ l.foldl Nat.max x := by
  induction l with
  | nil => intro x; simp
  | cons a l ih => intro x; exact le_trans (Nat.le_max_left x a) (ih _)

lemma foldl_max_ge_mem (l : List Nat) : ∀ x, ∀ a ∈ l, a ≤ l.foldl Nat.max x := by
  induction l with
  | nil => intro x a ha; cases ha
  | cons b l ih =>
    intro x a ha
    rcases List.mem_cons.mp ha with rfl | ha'
    · exact le_trans (Nat.le_max_right x a) (foldl_max_ge_init l (Nat.max x a))
    · exact ih (Nat.max x b) a ha'

lemma foldl_max_mem (l : List Nat) : ∀ x, l.foldl Nat.max x = x ∨ l.foldl Nat.max x ∈ l := by
  induction l with
  | nil => intro x; exact Or.inl rfl
  | cons b l ih =>
    intro x
    rcases ih (Nat.max x b) with h | h
    · rw [show (b :: l).foldl Nat.max x = l.foldl Nat.max (Nat.max x b) from rfl, h]
      rcases Nat.le_total x b with hxb | hbx
      · exact Or.inr (by simp [Nat.max_eq_right hxb])
      · exact Or.inl (Nat.max_eq_left hbx)
    · exact Or.inr (List.mem_cons_of_mem _ h)

lemma listMinD_le {l : List Nat} : ∀ a ∈ l, listMinD l ≤ a := by
  cases l with
  | nil => intro a ha; cases ha
  | cons x xs =>
    intro a ha
    rcases List.mem_cons.mp ha with rfl | ha'
    · exact foldl_min_le_init xs a
    · exact foldl_min_le_mem xs x a ha'

lemma listMinD_mem {l : List Nat} (h : l ≠ []) : listMinD l ∈ l := by
  cases l with
  | nil => exact absurd rfl h
  | cons x xs =>
    rcases foldl_min_mem xs x with h' | h'
    · rw [listMinD, h']; exact List.mem_cons_self x xs
    · exact List.mem_cons_of_mem _ h'

lemma le_listMaxD {l : List Nat} : ∀ a ∈ l, a ≤ listMaxD l := by
  cases l with
  | nil => intro a ha; cases ha
  | cons x xs =>
    intro a ha
    rcases List.mem_cons.mp ha with rfl | ha'
    · exact foldl_max_ge_init xs a
    · exact foldl_max_ge_mem xs x a ha'

lemma listMaxD_mem {l : List Nat} (h : l ≠ []) : listMaxD l ∈ l := by
  cases l with
  | nil => exact absurd rfl h
  | cons x xs =>
    rcases foldl_max_mem xs x with h' | h'
    · rw [listMaxD, h']; exact List.mem_cons_self x xs
    · exact List.mem_cons_of_mem _ h'

lemma length_mul_le_sum {l : List Nat} {m : Nat} (h : ∀ a ∈ l, m ≤ a) :
    l.length * m ≤ l.sum := by
  induction l with
  | nil => simp
  | cons a l ih =>
    have h1 := h a (List.mem_cons_self a l)
    have h2 := ih (fun b hb => h b (List.mem_cons_of_mem _ hb))
    simp only [List.length_cons, List.sum_cons]
    calc (l.length + 1) * m = l.length * m + m := by ring
      _ ≤ l.sum + a := Nat.add_le_add h2 h1
      _ = a + l.sum := by ring

lemma sum_le_length_mul {l : List Nat} {M : Nat} (h : ∀ a ∈ l, a ≤ M) :
    l.sum ≤ l.length * M := by
  induction l with
  | nil => simp
  | cons a l ih =>
    have h1 := h a (List.mem_cons_self a l)
    have h2 := ih (fun b hb => h b (List.mem_cons_of_mem _ hb))
    simp only [List.length_cons, List.sum_cons]
    calc a + l.sum ≤ M + l.length * M := Nat.add_le_add h1 h2
      _ = (l.length + 1) * M := by ring

lemma jsRoundDiv_ge {s n m : Nat} (hn : 0 < n) (h : n * m ≤ s) :
    m ≤ jsRoundDiv s n := by
  rw [jsRoundDiv, Nat.le_div_iff_mul_le (by omega)]
  calc m * (2 * n) = 2 * (n * m) := by ring
    _ ≤ 2 * s + n := by omega

lemma jsRoundDiv_le {s n M : Nat} (hn : 0 < n) (h : s ≤ n * M) :
    jsRoundDiv s n ≤ M := by
  rw [jsRoundDiv, ← Nat.lt_succ_iff, Nat.div_lt_iff_lt_mul (by omega : 0 < 2 * n)]
  calc 2 * s + n ≤ 2 * (n * M) + n := by omega
    _ < (M + 1) * (2 * n) := by nlinarith

lemma jsRoundDiv_near {s n : Nat} (hn : 0 < n) :
    |(jsRoundDiv s n : ℚ) - (s : ℚ) / (n : ℚ)| ≤ 1 / 2 := by
  have h2n : (0 : ℕ) < 2 * n := by omega
  have hdm : 2 * n * ((2 * s + n) / (2 * n)) + (2 * s + n) % (2 * n) = 2 * s + n :=
    Nat.div_add_mod (2 * s + n) (2 * n)
  have hrem : (2 * s + n) % (2 * n) < 2 * n := Nat.mod_lt _ h2n
  have hnq : (0 : ℚ) < (n : ℚ) := by exact_mod_cast hn
  have keyQ : 2 * (n : ℚ) * ((jsRoundDiv s n : ℕ) : ℚ) + (((2 * s + n) % (2 * n) : ℕ) : ℚ)
      = 2 * (s : ℚ) + (n : ℚ) := by
    rw [jsRoundDiv]
    exact_mod_cast hdm
  have hrq : (((2 * s + n) % (2 * n) : ℕ) : ℚ) < 2 * (n : ℚ) := by exact_mod_cast hrem
  have hrq0 : (0 : ℚ) ≤ (((2 * s + n) % (2 * n) : ℕ) : ℚ) := by positivity
  rw [abs_sub_le_iff]
  constructor
  · have e1 : ((jsRoundDiv s n : ℕ) : ℚ) - (s : ℚ) / (n : ℚ)
        = ((n : ℚ) - (((2 * s + n) % (2 * n) : ℕ) : ℚ)) / (2 * (n : ℚ)) := by
      field_simp
      linear_combination (n : ℚ) * keyQ
    rw [e1, div_le_div_iff₀ (by positivity) (by norm_num : (0:ℚ) < 2)]
    linarith
  · have e2 : (s : ℚ) / (n : ℚ) - ((jsRoundDiv s n : ℕ) : ℚ)
        = ((((2 * s + n) % (2 * n) : ℕ) : ℚ) - (n : ℚ)) / (2 * (n : ℚ)) := by
      field_simp
      linear_combination (-(n : ℚ)) * keyQ
    rw [e2, div_le_div_iff₀ (by positivity) (by norm_num : (0:ℚ) < 2)]
    linarith


/-! ### Helper lemmas on the upload chunk loop -/

lemma length_filterMap_eq_countP {α β : Type} (f : α → Option β) (l : List α) :
    (l.filterMap f).length = l.countP (fun a => (f a).isSome) := by
  induction l with
  | nil => rfl
  | cons a l ih =>
    rw [List.filterMap_cons]
    cases hfa : f a with
    | none => simp [List.countP_cons, hfa, ih]
    | some b => simp [List.countP_cons, hfa, ih]

lemma countP_range_ne (n i : Nat) (hi : i < n) :
    (List.range n).countP (fun j => decide (j ≠ i)) = n - 1 := by
  induction n with
  | zero => omega
  | succ n ih =>
    rw [List.range_succ, List.countP_append]
    by_cases hni : i = n
    · subst hni
      have hall : (List.range i).countP (fun j => decide (j ≠ i)) = i := by
        have hcp := List.countP_eq_length
          (l := List.range i) (p := fun j => decide (j ≠ i))
        rw [List.length_range] at hcp
        refine hcp.mpr ?_
        intro a ha
        have := List.mem_range.mp ha
        simp only [decide_eq_true_eq]
        omega
      have h0 : ([i].countP fun j => decide (j ≠ i)) = 0 := by
        simp [List.countP_cons]
      rw [hall, h0]
      omega
    · have hi' : i < n := by omega
      rw [ih hi']
      have h1 : ([n].countP fun j => decide (j ≠ i)) = 1 := by
        simp [List.countP_cons, Ne.symm hni]
      rw [h1]
      omega

lemma storeChunks_length_one_fail
    (env : UploadEnv) (meta : UploadMetadata) (file : FileReq)
    (pdfMeta : PDFMetaData) (pu : String) (pt : Nat) (chunks : List String)
    (i : Nat) (hi : i < chunks.length)
    (hfail : env.embed (contextEnhancedText meta file.name chunks[i]) = none)
    (hok : ∀ j (hj : j < chunks.length), j ≠ i →
      (env.embed (contextEnhancedText meta file.name chunks[j])).isSome = true)
    (hins : ∀ r, env.insertOk r = true) :
    (storeChunks env meta file pdfMeta pu pt chunks).length = chunks.length - 1 := by
  rw [storeChunks, length_filterMap_eq_countP]
  rw [List.countP_congr (q := fun p => decide (p.1 ≠ i)) ?_]
  · rw [show (fun p : Nat × String => decide (p.1 ≠ i)) =
        ((fun j => decide (j ≠ i)) ∘ Prod.fst) from rfl]
    rw [← List.countP_map, List.enum_map_fst, countP_range_ne _ _ hi]
  · intro p hp
    obtain ⟨j, c⟩ := p
    have hj : j < chunks.length := (List.mem_enum hp).1
    have hc : c = chunks[j] := (List.mem_enum hp).2
    rw [hc]
    by_cases hji : j = i
    · subst hji
      simp [hfail]
    · have hsome := hok j hj hji
      cases hemb : env.embed (contextEnhancedText meta file.name chunks[j]) with
      | none => rw [hemb] at hsome; simp at hsome
      | some e =>
        simp [hemb, hins, hji]


/-! ### Claim theorems -/

/-- C5: For every non-empty chunk sequence the preview statistics satisfy
`min_length ≤ avg_length ≤ max_length`; `total_chunks` is the sequence
length; `min_length`/`max_length` are the minimum and maximum chunk lengths
(attained members and bounds); `avg_length` is within one half of the exact
arithmetic mean (JavaScript `Math.round`); and `first_chunk`/`last_chunk`
reference the first and last chunk with their indices. -/
theorem chunkStats_spec (allChunks : List String) (tpt : Nat) (pp : String)
    (fm : List FileMeta) (h : allChunks ≠ []) :
    (chunkStatsOf allChunks tpt pp fm).total_chunks = allChunks.length ∧
    (chunkStatsOf allChunks tpt pp fm).min_length ≤
      (chunkStatsOf allChunks tpt pp fm).avg_length ∧
    (chunkStatsOf allChunks tpt pp fm).avg_length ≤
      (chunkStatsOf allChunks tpt pp fm).max_length ∧
    ((chunkStatsOf allChunks tpt pp fm).min_length ∈ allChunks.map String.length ∧
      ∀ a ∈ allChunks.map String.length,
        (chunkStatsOf allChunks tpt pp fm).min_length ≤ a) ∧
    ((chunkStatsOf allChunks tpt pp fm).max_length ∈ allChunks.map String.length ∧
      ∀ a ∈ allChunks.map String.length,
        a ≤ (chunkStatsOf allChunks tpt pp fm).max_length) ∧
    |((chunkStatsOf allChunks tpt pp fm).avg_length : ℚ) -
        ((allChunks.map String.length).sum : ℚ) / (allChunks.length : ℚ)| ≤ 1 / 2 ∧
    (chunkStatsOf allChunks tpt pp fm).first_chunk =
      some ⟨0, allChunks.head h, (allChunks.head h).length⟩ ∧
    (chunkStatsOf allChunks tpt pp fm).last_chunk =
      some ⟨allChunks.length - 1, allChunks.getLast h,
        (allChunks.getLast h).length⟩ := by
  have hn : 0 < allChunks.length := List.length_pos.mpr h
  have hLne : allChunks.map String.length ≠ [] := by
    intro hmap
    exact h (List.map_eq_nil_iff.mp hmap)
  have hlen : (allChunks.map String.length).length = allChunks.length :=
    List.length_map _ _
  have e_min : (chunkStatsOf allChunks tpt pp fm).min_length =
      listMinD (allChunks.map String.length) := rfl
  have e_max : (chunkStatsOf allChunks tpt pp fm).max_length =
      listMaxD (allChunks.map String.length) := rfl
  have e_avg : (chunkStatsOf allChunks tpt pp fm).avg_length =
      jsRoundDiv (allChunks.map String.length).sum allChunks.length := rfl
  refine ⟨rfl, ?_, ?_, ⟨?_, ?_⟩, ⟨?_, ?_⟩, ?_, ?_, ?_⟩
  · rw [e_min, e_avg]
    refine jsRoundDiv_ge hn ?_
    calc allChunks.length * listMinD (allChunks.map String.length)
        = (allChunks.map String.length).length *
            listMinD (allChunks.map String.length) := by rw [hlen]
      _ ≤ (allChunks.map String.length).sum :=
          length_mul_le_sum (fun a ha => listMinD_le a ha)
  · rw [e_max, e_avg]
    refine jsRoundDiv_le hn ?_
    calc (allChunks.map String.length).sum
        ≤ (allChunks.map String.length).length *
            listMaxD (allChunks.map String.length) :=
          sum_le_length_mul (fun a ha => le_listMaxD a ha)
      _ = allChunks.length * listMaxD (allChunks.map String.length) := by rw [hlen]
  · rw [e_min]; exact listMinD_mem hLne
  · rw [e_min]; exact fun a ha => listMinD_le a ha
  · rw [e_max]; exact listMaxD_mem hLne
  · rw [e_max]; exact fun a ha => le_listMaxD a ha
  · rw [e_avg]; exact jsRoundDiv_near hn
  · have hp : 0 < (allChunks.enum.map fun p =>
        ChunkPreview.mk p.1 p.2 p.2.length).length := by
      simpa using hn
    have e_first : (chunkStatsOf allChunks tpt pp fm).first_chunk =
        (allChunks.enum.map fun p =>
          ChunkPreview.mk p.1 p.2 p.2.length).head? := rfl
    rw [e_first, List.head?_eq_getElem?, List.getElem?_eq_getElem hp]
    have : (allChunks.enum.map fun p =>
        ChunkPreview.mk p.1 p.2 p.2.length)[0] =
        ChunkPreview.mk 0 allChunks[0] allChunks[0].length := by
      simp [List.getElem_map, List.getElem_enum]
    rw [this, List.head_eq_getElem]
  · have hlenp : (allChunks.enum.map fun p =>
        ChunkPreview.mk p.1 p.2 p.2.length).length = allChunks.length := by
      simp
    have hp : (allChunks.enum.map fun p =>
        ChunkPreview.mk p.1 p.2 p.2.length).length - 1 <
        (allChunks.enum.map fun p =>
          ChunkPreview.mk p.1 p.2 p.2.length).length := by
      rw [hlenp]; omega
    have e_last : (chunkStatsOf allChunks tpt pp fm).last_chunk =
        (allChunks.enum.map fun p =>
          ChunkPreview.mk p.1 p.2 p.2.length).getLast? := rfl
    rw [e_last, List.getLast?_eq_getElem?, List.getElem?_eq_getElem hp]
    have hidx : allChunks.length - 1 < allChunks.length := by omega
    have : (allChunks.enum.map fun p =>
        ChunkPreview.mk p.1 p.2 p.2.length)[(allChunks.enum.map fun p =>
          ChunkPreview.mk p.1 p.2 p.2.length).length - 1] =
        ChunkPreview.mk (allChunks.length - 1) allChunks[allChunks.length - 1]
          allChunks[allChunks.length - 1].length := by
      simp [List.getElem_map, List.getElem_enum, hlenp]
    rw [this, List.getLast_eq_getElem]

/-- Witness for `chunkStats_spec` at a concrete two-chunk list. -/
theorem chunkStats_spec_witness :
    (["alpha", "be"] ≠ ([] : List String)) ∧
    (chunkStatsOf ["alpha", "be"] 0 "pdf-parse" []).min_length ≤
      (chunkStatsOf ["alpha", "be"] 0 "pdf-parse" []).avg_length ∧
    (chunkStatsOf ["alpha", "be"] 0 "pdf-parse" []).avg_length ≤
      (chunkStatsOf ["alpha", "be"] 0 "pdf-parse" []).max_length :=
  ⟨by decide, (chunkStats_spec ["alpha", "be"] 0 "pdf-parse" [] (by decide)).2.1,
    (chunkStats_spec ["alpha", "be"] 0 "pdf-parse" [] (by decide)).2.2.1⟩

/-- C6: For every stored row set, input vector, threshold and count, the
feedback similarity function returns only stored rows whose cosine
similarity strictly exceeds the threshold and whose comment is non-null and
non-blank after trimming, ordered from most to least similar, and at most
`match_count` rows. The pgvector `<=>` operator is a parameter `dist`. -/
theorem match_feedback_spec (dist : List ℚ → List ℚ → ℚ) (q : List ℚ)
    (t : ℚ) (n : Nat) (rows : List FeedbackRow) :
    (∀ r ∈ match_feedback_by_embedding dist q t n rows,
      r ∈ rows ∧
      (∃ e, r.query_embedding = some e ∧ 1 - dist e q > t) ∧
      ∃ c, r.comment = some c ∧ 0 < (sqlTrim c).length) ∧
    List.Pairwise (fun a b => rowSimilarity dist q b ≤ rowSimilarity dist q a)
      (match_feedback_by_embedding dist q t n rows) ∧
    (match_feedback_by_embedding dist q t n rows).length ≤ n := by
  have keymem : ∀ r ∈ match_feedback_by_embedding dist q t n rows,
      r ∈ rows.filter (fun r =>
        match r.query_embedding with
        | none => false
        | some e => decide (1 - dist e q > t) && commentKept r.comment) := by
    intro r hr
    unfold match_feedback_by_embedding at hr
    have h1 := List.take_subset _ _ hr
    exact ((List.perm_insertionSort _ _).mem_iff).mp h1
  refine ⟨?_, ?_, ?_⟩
  · intro r hr
    have h2 := keymem r hr
    have h3 := List.mem_of_mem_filter h2
    have h4 := List.of_mem_filter h2
    cases he : r.query_embedding with
    | none => rw [he] at h4; simp at h4
    | some e =>
      rw [he] at h4
      simp only [Bool.and_eq_true, decide_eq_true_eq] at h4
      refine ⟨h3, ⟨e, rfl, h4.1⟩, ?_⟩
      cases hc : r.comment with
      | none => rw [hc] at h4; simp [commentKept] at h4
      | some c =>
        rw [hc] at h4
        have h5 := h4.2
        simp [commentKept] at h5
        exact ⟨c, rfl, h5⟩
  · haveI : IsTotal FeedbackRow (fun a b => rowDist dist q a ≤ rowDist dist q b) :=
      ⟨fun a b => le_total _ _⟩
    haveI : IsTrans FeedbackRow (fun a b => rowDist dist q a ≤ rowDist dist q b) :=
      ⟨fun _ _ _ h₁ h₂ => le_trans h₁ h₂⟩
    have hs := List.sorted_insertionSort
      (fun a b => rowDist dist q a ≤ rowDist dist q b)
      (rows.filter (fun r =>
        match r.query_embedding with
        | none => false
        | some e => decide (1 - dist e q > t) && commentKept r.comment))
    have hp := List.Pairwise.sublist (List.take_sublist n _) hs
    unfold match_feedback_by_embedding
    exact hp.imp (fun h => by simp only [rowSimilarity]; linarith)
  · unfold match_feedback_by_embedding
    rw [List.length_take]
    exact min_le_left _ _

/-- C7: `PDFParserFactory.create` fails on every unregistered name with
an error whose message contains every registered parser name, and succeeds
on every registered name with the backend of that name. -/
theorem parser_create_spec (t : String) :
    (t ∉ AVAILABLE_PARSERS.map Prod.fst →
      PDFParserFactory.create t = .error (createErrorMsg t) ∧
      ∀ n ∈ AVAILABLE_PARSERS.map Prod.fst, n.data <:+: (createErrorMsg t).data) ∧
    (t ∈ AVAILABLE_PARSERS.map Prod.fst →
      ∃ b, PDFParserFactory.create t = .ok b ∧ backendName b = t) := by
  constructor
  · intro ht
    have h1 : t ≠ "pdf-parse" ∧ t ≠ "mock" := by
      simpa [AVAILABLE_PARSERS] using ht
    constructor
    · have e1 : (t == "pdf-parse") = false := beq_eq_false_iff_ne.mpr h1.1
      have e2 : (t == "mock") = false := beq_eq_false_iff_ne.mpr h1.2
      simp [PDFParserFactory.create, AVAILABLE_PARSERS, List.lookup, e1, e2]
    · intro n hn
      have hdata : (createErrorMsg t).data =
          ("Parser \x27".data ++ t.data ++ "\x27 not found. Available parsers: ".data) ++
            (String.intercalate ", " (AVAILABLE_PARSERS.map Prod.fst)).data := by
        simp [createErrorMsg, String.data_append]
      have hsuf : (String.intercalate ", " (AVAILABLE_PARSERS.map Prod.fst)).data <:+:
          (createErrorMsg t).data := by
        rw [hdata]
        exact (List.suffix_append _ _).isInfix
      have hn' : n = "pdf-parse" ∨ n = "mock" := by
        simpa [AVAILABLE_PARSERS] using hn
      rcases hn' with rfl | rfl
      · exact List.IsInfix.trans (by decide) hsuf
      · exact List.IsInfix.trans (by decide) hsuf
  · intro ht
    have ht' : t = "pdf-parse" ∨ t = "mock" := by
      simpa [AVAILABLE_PARSERS] using ht
    rcases ht' with rfl | rfl
    · exact ⟨.pdfParse, rfl, rfl⟩
    · exact ⟨.mock, rfl, rfl⟩

/-- Witness for `parser_create_spec` at `"bogus"` and `"pdf-parse"`. -/
theorem parser_create_spec_witness :
    ("bogus" ∉ AVAILABLE_PARSERS.map Prod.fst ∧
      PDFParserFactory.create "bogus" = .error (createErrorMsg "bogus")) ∧
    ("pdf-parse" ∈ AVAILABLE_PARSERS.map Prod.fst ∧
      ∃ b, PDFParserFactory.create "pdf-parse" = .ok b ∧ backendName b = "pdf-parse") :=
  ⟨⟨by decide, ((parser_create_spec "bogus").1 (by decide)).1⟩,
   ⟨by decide, (parser_create_spec "pdf-parse").2 (by decide)⟩⟩

/-- C8: `getBestParser` returns the name of a registered backend; with no
requirements it returns the default `"pdf-parse"`; if the first registry
entry (`pdf-parse`) meets the requirements it is chosen; if some registered
backend meets every required capability the returned name is of a backend
that does; and if none does the default is returned. -/
theorem getBestParser_spec :
    PDFParserFactory.getBestParser none = "pdf-parse" ∧
    ∀ r : FeatureRequirements,
      (PDFParserFactory.getBestParser (some r) = "pdf-parse" ∨
        PDFParserFactory.getBestParser (some r) = "mock") ∧
      (meetsRequirements (supportsFeatures .pdfParse) r = true →
        PDFParserFactory.getBestParser (some r) = "pdf-parse") ∧
      (∀ p ∈ getAvailableParsers, meetsRequirements p.features r = true →
        ∃ q ∈ getAvailableParsers,
          PDFParserFactory.getBestParser (some r) = q.name ∧
          meetsRequirements q.features r = true) ∧
      ((∀ p ∈ getAvailableParsers, meetsRequirements p.features r = false) →
        PDFParserFactory.getBestParser (some r) = "pdf-parse") := by
  refine ⟨rfl, fun r => ?_⟩
  cases h1 : meetsRequirements (supportsFeatures .pdfParse) r <;>
    cases h2 : meetsRequirements (supportsFeatures .mock) r <;>
      simp_all [PDFParserFactory.getBestParser, getAvailableParsers,
        AVAILABLE_PARSERS, List.find?, h1, h2]

/-- Witness for `getBestParser_spec`: an OCR requirement nothing satisfies
falls back to the default, and an encryption requirement picks `mock`. -/
theorem getBestParser_spec_witness :
    PDFParserFactory.getBestParser (some { ocrCapability := some true }) = "pdf-parse" ∧
    ∃ q ∈ getAvailableParsers,
      PDFParserFactory.getBestParser (some { handleEncrypted := some true }) = q.name ∧
      meetsRequirements q.features { handleEncrypted := some true } = true :=
  ⟨(getBestParser_spec.2 _).2.2.2 (by decide),
    (getBestParser_spec.2 _).2.2.1
      (ParserDescriptor.mk "mock" (backendDescription .mock) (supportsFeatures .mock))
      (by decide) (by decide)⟩


/-- C9: In both endpoints a `chunkSize`/`chunkOverlap` form field whose
value parses to `0` or `NaN` (absent, empty, non-numeric) is silently
replaced by the default 5000/500, the resolved values are never `0`, and a
request carrying `"0"` is answered exactly like one carrying the default. -/
theorem chunk_params_default_spec :
    (∀ f : Option String,
      ((jsParseIntField f = none ∨ jsParseIntField f = some 0) →
        resolveChunkSize f = 5000 ∧ resolveChunkOverlap f = 500) ∧
      resolveChunkSize f ≠ 0 ∧ resolveChunkOverlap f ≠ 0) ∧
    jsParseIntField none = none ∧
    jsParseIntField (some "") = none ∧
    jsParseIntField (some "abc") = none ∧
    (∀ (env : UploadEnv) (req : RouteRequest),
      uploadPOST env { req with chunkSizeField := some "0" } =
        uploadPOST env { req with chunkSizeField := some "5000" }) ∧
    (∀ (env : PreviewEnv) (req : RouteRequest),
      previewPOST env { req with chunkOverlapField := some "0" } =
        previewPOST env { req with chunkOverlapField := some "500" }) := by
  refine ⟨fun f => ⟨?_, ?_, ?_⟩, rfl, rfl, rfl, fun env req => rfl, fun env req => rfl⟩
  · intro h
    rcases h with h | h <;>
      simp [resolveChunkSize, resolveChunkOverlap, resolveIntField, h]
  · rcases hj : jsParseIntField f with _ | v
    · simp [resolveChunkSize, resolveIntField, hj]
    · by_cases hv : v = 0 <;> simp [resolveChunkSize, resolveIntField, hj, hv]
  · rcases hj : jsParseIntField f with _ | v
    · simp [resolveChunkOverlap, resolveIntField, hj]
    · by_cases hv : v = 0 <;> simp [resolveChunkOverlap, resolveIntField, hj, hv]

/-- C1: In the upload endpoint a failing embedding call for one chunk is
caught and the loop continues: with one file splitting into `chunks`, the
embedding oracle failing exactly on chunk `i` and every insert succeeding,
the response is `success: true` with `chunksCount = chunks.length - 1` and
`documentsCount = 1`. -/
theorem upload_chunk_failure_isolated
    (env : UploadEnv) (mstr text : String) (meta : UploadMetadata)
    (file : FileReq) (pdfMeta : PDFMetaData) (pu : String) (pt : Nat)
    (chunks : List String) (i : Nat)
    (hm : mstr ≠ "")
    (hjson : env.jsonParse mstr = some meta)
    (hparse : file.parse = .ok text pdfMeta pu pt)
    (htext : jsTrim text ≠ "")
    (hsplit : env.splitFam "recursive" 5000 500 text = chunks)
    (hi : i < chunks.length)
    (hfail : env.embed (contextEnhancedText meta file.name chunks[i]) = none)
    (hok : ∀ j (hj : j < chunks.length), j ≠ i →
      (env.embed (contextEnhancedText meta file.name chunks[j])).isSome = true)
    (hins : ∀ r, env.insertOk r = true) :
    ∃ m, uploadPOST env { files := [file], metadataStr := some mstr } =
      .ok 1 (chunks.length - 1) m := by
  have htext0 : (text == "") = false := by
    refine beq_eq_false_iff_ne.mpr ?_
    intro h0
    apply htext
    rw [h0]
    decide
  have htext1 : (jsTrim text == "") = false := beq_eq_false_iff_ne.mpr htext
  have hm0 : (mstr == "") = false := beq_eq_false_iff_ne.mpr hm
  have hlen0 : (chunks.length == 0) = false := by
    refine beq_eq_false_iff_ne.mpr ?_
    omega
  have hpf : processUploadFile (env.splitFam "recursive" 5000 500) env meta file =
      (storeChunks env meta file pdfMeta pu pt chunks, true) := by
    simp only [processUploadFile, hparse, htext0, htext1, hsplit, hlen0]
    simp
  have hloop : uploadLoop (env.splitFam "recursive" 5000 500) env meta [file] =
      (storeChunks env meta file pdfMeta pu pt chunks, 1) := by
    simp only [uploadLoop, hpf]
    simp
  have hLen := storeChunks_length_one_fail env meta file pdfMeta pu pt chunks i
    hi hfail hok hins
  have hr1 : jsOrStr none "recursive" = "recursive" := rfl
  have hr2 : resolveChunkSize none = 5000 := rfl
  have hr3 : resolveChunkOverlap none = 500 := rfl
  refine ⟨"Successfully processed " ++ toString (1 : Nat) ++ " documents with " ++
    toString (chunks.length - 1) ++ " chunks", ?_⟩
  simp only [uploadPOST, jsFalsyStr, hm0, Option.getD_some, hjson]
  simp only [hr1, hr2, hr3, hloop, hLen]
  simp [hLen]


/-- C10: Every record stored by the upload chunk loop for a file whose
split produced `chunks` has `chunk_id = chunk_index + 1`, carries
`chunks.length` as `total_chunks` both as a column and inside its metadata
object, satisfies `1 ≤ chunk_id ≤ total_chunks`, and its content is the
chunk at its 0-based index. -/
theorem stored_record_invariants
    (env : UploadEnv) (meta : UploadMetadata) (file : FileReq)
    (pdfMeta : PDFMetaData) (pu : String) (pt : Nat) (chunks : List String)
    (r : StoredChunkRecord)
    (hr : r ∈ storeChunks env meta file pdfMeta pu pt chunks) :
    r.chunk_id = r.meta_chunk_index + 1 ∧
    r.total_chunks = chunks.length ∧
    r.meta_total_chunks = chunks.length ∧
    1 ≤ r.chunk_id ∧ r.chunk_id ≤ chunks.length ∧
    r.meta_chunk_index < chunks.length ∧
    chunks[r.meta_chunk_index]? = some r.content := by
  rw [storeChunks] at hr
  obtain ⟨p, hp, hfp⟩ := List.mem_filterMap.mp hr
  obtain ⟨j, c⟩ := p
  have hj : j < chunks.length := (List.mem_enum hp).1
  have hc : c = chunks[j] := (List.mem_enum hp).2
  have hfp' : (match env.embed (contextEnhancedText meta file.name c) with
      | none => none
      | some embedding =>
        let rr := mkChunkRecord meta file pdfMeta pu pt chunks.length j c embedding
        if env.insertOk rr = true then some rr else none) = some r := hfp
  clear hfp
  cases hemb : env.embed (contextEnhancedText meta file.name c) with
  | none => rw [hemb] at hfp'; simp at hfp'
  | some e =>
    rw [hemb] at hfp'
    by_cases hins : env.insertOk
        (mkChunkRecord meta file pdfMeta pu pt chunks.length j c e) = true
    · simp only [hins, if_true] at hfp'
      rw [Option.some_inj] at hfp'
      subst hfp'
      refine ⟨rfl, rfl, rfl, ?_, ?_, hj, ?_⟩
      · show 1 ≤ j + 1
        omega
      · show j + 1 ≤ chunks.length
        omega
      · show chunks[j]? = some c
        rw [hc]
        exact List.getElem?_eq_getElem hj
    · simp [hins] at hfp'

/-- Witness for `stored_record_invariants` at a concrete two-chunk store. -/
theorem stored_record_invariants_witness :
    (mkChunkRecord {} okFile {} "pdf-parse" 3 2 0 "x" [0]) ∈
      storeChunks allOkUploadEnv {} okFile {} "pdf-parse" 3 ["x", "y"] ∧
    (mkChunkRecord {} okFile {} "pdf-parse" 3 2 0 "x" [0]).chunk_id =
      (mkChunkRecord {} okFile {} "pdf-parse" 3 2 0 "x" [0]).meta_chunk_index + 1 ∧
    (mkChunkRecord {} okFile {} "pdf-parse" 3 2 0 "x" [0]).total_chunks = 2 :=
  have hmem : (mkChunkRecord {} okFile {} "pdf-parse" 3 2 0 "x" [0]) ∈
      storeChunks allOkUploadEnv {} okFile {} "pdf-parse" 3 ["x", "y"] := by decide
  ⟨hmem,
    (stored_record_invariants allOkUploadEnv {} okFile {} "pdf-parse" 3
      ["x", "y"] _ hmem).1,
    (stored_record_invariants allOkUploadEnv {} okFile {} "pdf-parse" 3
      ["x", "y"] _ hmem).2.1⟩

/-- C4 amended: A per-file failure is caught only in the upload
endpoint: there the failing file contributes nothing and the remaining
files are processed exactly as without it; in the preview endpoint the same
failure makes the whole loop return the per-file error (an HTTP 400),
aborting the siblings. -/
theorem file_failure_handling
    (split : String → List String) (env : UploadEnv) (meta : UploadMetadata)
    (f : FileReq) (msg : String) (rest : List FileReq)
    (hf : f.parse = .err msg) :
    uploadLoop split env meta (f :: rest) = uploadLoop split env meta rest ∧
    previewLoop split (f :: rest) =
      .error ("Failed to process file " ++ f.name ++ ": " ++ msg) := by
  have hpf : processUploadFile split env meta f = ([], false) := by
    rw [processUploadFile, hf]
  constructor
  · cases hrest : uploadLoop split env meta rest with
    | mk recs docs => simp [uploadLoop, hpf, hrest]
  · simp [previewLoop, hf]

/-- Witness for `file_failure_handling` at a concrete failing file. -/
theorem file_failure_handling_witness :
    badFile.parse = .err "Invalid PDF structure" ∧
    uploadLoop (wholeTextSplitFam "recursive" 5000 500) allOkUploadEnv {}
        (badFile :: [okFile]) =
      uploadLoop (wholeTextSplitFam "recursive" 5000 500) allOkUploadEnv {}
        [okFile] :=
  ⟨rfl,
    (file_failure_handling (wholeTextSplitFam "recursive" 5000 500)
      allOkUploadEnv {} badFile "Invalid PDF structure" [okFile] rfl).1⟩

/-- C4 counterexample: in the preview endpoint a request with two files
whose first fails to parse is answered with HTTP 400 — the second file is
never processed — even though the second file alone succeeds. -/
theorem preview_file_failure_aborts :
    ({ files := [badFile, okFile], metadataStr := some "m" } : RouteRequest).files.length = 2 ∧
    previewPOST plainPreviewEnv { files := [badFile, okFile], metadataStr := some "m" } =
      .badRequest "Failed to process file b.pdf: Invalid PDF structure" ∧
    previewStatus
      (previewPOST plainPreviewEnv { files := [okFile], metadataStr := some "m" }) = 200 := by
  refine ⟨rfl, ?_, ?_⟩ <;> decide

/-- C2 amended: The preview endpoint does not abort on an absent
metadata field: with a non-empty file list and no `metadata` field the
response is exactly the post-validation processing stage (the parsed
metadata object defaults to `{}` and is never used). -/
theorem preview_absent_metadata_proceeds
    (env : PreviewEnv) (req : RouteRequest)
    (hm : req.metadataStr = none) (hf : req.files.length ≠ 0) :
    previewPOST env req = previewProcess env req := by
  have h0 : (req.files.length == 0) = false := beq_eq_false_iff_ne.mpr hf
  simp [previewPOST, h0, hm, jsFalsyStr]

/-- Witness for `preview_absent_metadata_proceeds` at a concrete request. -/
theorem preview_absent_metadata_witness :
    previewPOST plainPreviewEnv { files := [okFile], metadataStr := none } =
      previewProcess plainPreviewEnv { files := [okFile], metadataStr := none } :=
  preview_absent_metadata_proceeds plainPreviewEnv
    { files := [okFile], metadataStr := none } rfl (by decide)

/-- C2 counterexample: a preview request with one (parseable) file and
no metadata field succeeds with HTTP 200 instead of aborting with 400. -/
theorem preview_missing_metadata_counterexample :
    ({ files := [okFile], metadataStr := none } : RouteRequest).metadataStr = none ∧
    ({ files := [okFile], metadataStr := none } : RouteRequest).files.length = 1 ∧
    previewStatus
      (previewPOST plainPreviewEnv { files := [okFile], metadataStr := none }) = 200 := by
  refine ⟨rfl, rfl, ?_⟩
  decide

/-- Witness for `chunk_params_default_spec` at `"0"`, `"abc"` and `"7"`. -/
theorem chunk_params_default_witness :
    resolveChunkSize (some "0") = 5000 ∧
    resolveChunkOverlap (some "abc") = 500 ∧
    resolveChunkSize (some "7") ≠ 0 :=
  ⟨((chunk_params_default_spec.1 (some "0")).1 (Or.inr (by decide))).1,
    ((chunk_params_default_spec.1 (some "abc")).1 (Or.inl (by decide))).2,
    (chunk_params_default_spec.1 (some "7")).2.1⟩

/-- Witness for `upload_chunk_failure_isolated`: two chunks, the second
chunk's embedding call fails, and the response is `success` with
`documentsCount = 1`, `chunksCount = 1`. -/
theorem upload_chunk_failure_isolated_witness :
    (1 < (["a", "b"] : List String).length) ∧
    ∃ m, uploadPOST oneFailUploadEnv
        { files := [okFile], metadataStr := some "m" } =
      UploadResponse.ok 1 1 m :=
  ⟨by decide,
    upload_chunk_failure_isolated oneFailUploadEnv "m" "hello" {} okFile {}
      "pdf-parse" 3 ["a", "b"] 1 (by decide) rfl rfl (by decide) rfl
      (by decide) (by decide) (by decide) (fun _ => rfl)⟩


lemma processUploadFile_snd (split : String → List String) (env : UploadEnv)
    (meta : UploadMetadata) (f : FileReq) :
    (processUploadFile split env meta f).2 = fileCompletes split f := by
  rw [processUploadFile, fileCompletes]
  cases f.parse with
  | err m => rfl
  | ok text pm pu pt =>
    by_cases h1 : (text == "" || jsTrim text == "") = true
    · simp [h1]
    · rw [Bool.not_eq_true] at h1
      by_cases h2 : ((split text).length == 0) = true
      · simp [h1, h2]
      · rw [Bool.not_eq_true] at h2
        simp [h1, h2]

lemma uploadLoop_docsCount (split : String → List String) (env : UploadEnv)
    (meta : UploadMetadata) :
    ∀ files, (uploadLoop split env meta files).2 =
      (files.filter (fileCompletes split)).length := by
  intro files
  induction files with
  | nil => rfl
  | cons f fs ih =>
    cases hpf : processUploadFile split env meta f with
    | mk recs inc =>
      have hsnd := processUploadFile_snd split env meta f
      rw [hpf] at hsnd
      simp only [uploadLoop, hpf, List.filter_cons, ← hsnd]
      cases inc <;> simp [ih, Nat.add_comm]

/-- C3 amended: Under passing validation the upload endpoint always
answers `success: true`; `documentsCount` equals the number of files that
completed per-file processing (parse succeeded, non-blank text, at least
one chunk) — not the number of files in the request — and `chunksCount` is
the number of successfully stored chunk records. -/
theorem upload_counts_spec
    (env : UploadEnv) (req : RouteRequest) (meta : UploadMetadata)
    (hfne : req.files.length ≠ 0)
    (hm : jsFalsyStr req.metadataStr = false)
    (hjson : env.jsonParse (req.metadataStr.getD "") = some meta) :
    ∃ m, uploadPOST env req =
      UploadResponse.ok
        ((req.files.filter (fileCompletes (env.splitFam
            (jsOrStr req.splitterTypeField "recursive")
            (resolveChunkSize req.chunkSizeField)
            (resolveChunkOverlap req.chunkOverlapField)))).length)
        ((uploadLoop (env.splitFam
            (jsOrStr req.splitterTypeField "recursive")
            (resolveChunkSize req.chunkSizeField)
            (resolveChunkOverlap req.chunkOverlapField)) env meta
          req.files).1.length)
        m := by
  have h0 : (req.files.length == 0) = false := beq_eq_false_iff_ne.mpr hfne
  cases hloop : uploadLoop (env.splitFam
      (jsOrStr req.splitterTypeField "recursive")
      (resolveChunkSize req.chunkSizeField)
      (resolveChunkOverlap req.chunkOverlapField)) env meta req.files with
  | mk recs docs =>
    have hdocs : docs = (req.files.filter (fileCompletes (env.splitFam
        (jsOrStr req.splitterTypeField "recursive")
        (resolveChunkSize req.chunkSizeField)
        (resolveChunkOverlap req.chunkOverlapField)))).length := by
      have hd := uploadLoop_docsCount (env.splitFam
        (jsOrStr req.splitterTypeField "recursive")
        (resolveChunkSize req.chunkSizeField)
        (resolveChunkOverlap req.chunkOverlapField)) env meta req.files
      rw [hloop] at hd
      exact hd
    refine ⟨"Successfully processed " ++ toString docs ++ " documents with " ++
      toString recs.length ++ " chunks", ?_⟩
    simp only [uploadPOST, h0, hm, hjson, hloop]
    rw [hdocs]
    simp

/-- Witness for `upload_counts_spec`: one good and one failing file give
`documentsCount = 1`. -/
theorem upload_counts_spec_witness :
    (({ files := [okFile, badFile], metadataStr := some "m" } : RouteRequest).files.length ≠ 0) ∧
    ∃ m, uploadPOST allOkUploadEnv
        { files := [okFile, badFile], metadataStr := some "m" } =
      UploadResponse.ok 1 1 m :=
  ⟨by decide,
    upload_counts_spec allOkUploadEnv
      { files := [okFile, badFile], metadataStr := some "m" } {}
      (by decide) rfl rfl⟩

/-- C3 counterexample: two files in the request, one failing to parse —
the response reports `documentsCount = 1`, not the number of files
attempted (2). -/
theorem upload_counts_counterexample :
    ({ files := [okFile, badFile], metadataStr := some "m" } : RouteRequest).files.length = 2 ∧
    uploadPOST allOkUploadEnv
        { files := [okFile, badFile], metadataStr := some "m" } =
      UploadResponse.ok 1 1 "Successfully processed 1 documents with 1 chunks" := by
  refine ⟨rfl, ?_⟩
  decide


/-- A concrete `<=>` distance for witnesses: the stored vector's head. -/
def simpleDist : List ℚ → List ℚ → ℚ := fun e _ => e.headD 0

/-- A stored feedback row with a non-blank comment and an embedding at
distance 0 from everything. -/
def goodRow : FeedbackRow :=
  { rowId := 1, user_query := "q", ai_response := "a",
    feedback_type := "helpful", comment := some "good",
    query_embedding := some [0] }

lemma match_feedback_witness_eval :
    match_feedback_by_embedding simpleDist [9] 0 5 [goodRow] = [goodRow] := by
  have hq : (1 : ℚ) - simpleDist [0] [9] > 0 := by norm_num [simpleDist]
  have hc : commentKept goodRow.comment = true := by decide
  rw [match_feedback_by_embedding]
  have hpred : (fun r : FeedbackRow =>
      match r.query_embedding with
      | none => false
      | some e =>
        decide ((1 : ℚ) - simpleDist e [9] > 0) && commentKept r.comment)
      goodRow = true := by
    show (match goodRow.query_embedding with
      | none => false
      | some e =>
        decide ((1 : ℚ) - simpleDist e [9] > 0) && commentKept goodRow.comment) = true
    show (decide ((1 : ℚ) - simpleDist [0] [9] > 0) &&
      commentKept goodRow.comment) = true
    rw [decide_eq_true hq, hc]
    rfl
  simp only [List.filter, hpred, List.insertionSort, List.orderedInsert,
    List.take]

/-- Witness for `match_feedback_spec` at a concrete row set. -/
theorem match_feedback_spec_witness :
    goodRow ∈ match_feedback_by_embedding simpleDist [9] 0 5 [goodRow] ∧
    (∃ c, goodRow.comment = some c ∧ 0 < (sqlTrim c).length) ∧
    (match_feedback_by_embedding simpleDist [9] 0 5 [goodRow]).length ≤ 5 :=
  have hmem : goodRow ∈
      match_feedback_by_embedding simpleDist [9] 0 5 [goodRow] := by
    rw [match_feedback_witness_eval]
    exact List.mem_singleton_self goodRow
  ⟨hmem,
    ((match_feedback_spec simpleDist [9] 0 5 [goodRow]).1 goodRow hmem).2.2,
    (match_feedback_spec simpleDist [9] 0 5 [goodRow]).2.2⟩

end FinancialGPT
